import Mathlib

/-!
Verification of the Dual_Display_ESP32 firmware core: a shallow embedding of
the ToF target detector (`src/firmware/src/tof_sensor.cpp`), the gaze state
machine (`src/firmware/src/eye_logic.cpp`) and the eye compositor
(`src/Dual_Display_Firmware/drawing_tools.cpp`), with theorems about the
detection, smoothing and rendering algorithms.

Modelling conventions:
* C `float` arithmetic is modelled by exact rational arithmetic over `ℚ`.
  Every float expression in the modelled code paths is a ratio of small
  integers, so the model and the float code agree on all properties stated
  below up to float rounding; divisions are written with `mkRat` so that the
  kernel can evaluate them.
* Machine integers are modelled as `Nat`/`Int` with explicit wrapping
  (`% 2^32` for `uint32_t` accumulators, `wrap16` for `int16_t` casts).
* The mutable globals (`current_target`, the eye-state variables) are passed
  as explicit state.
-/

set_option maxRecDepth 1000000

/-! ### Configuration constants (config.h, drawing_tools.h) -/

/-- `MAX_DIST_TOF` from `firmware/include/config.h`. -/
def MAX_DIST_TOF : Nat := 400

/-- `MIN_RELIABLE_PIXELS_IN_WINDOW` from `process_measurement_data`. -/
def MIN_RELIABLE_PIXELS_IN_WINDOW : Nat := 4

/-- `SCR_WD` from `drawing_tools.h`. -/
def SCR_WD : Nat := 240

/-- `SCR_HT` from `drawing_tools.h`. -/
def SCR_HT : Nat := 240

/-- `EYE_IMAGE_WIDTH` from `config.h`. -/
def EYE_IMAGE_WIDTH : Nat := 350

/-- `EYE_IMAGE_HEIGHT` from `config.h`. -/
def EYE_IMAGE_HEIGHT : Nat := 350

/-- `TRANSPARENT_COLOR_KEY` from `config.h` (0x0000). -/
def TRANSPARENT_COLOR_KEY : Nat := 0

/-- `SACCADE_DELAY_AFTER_TRACK_MS` from `firmware/include/config.h`. -/
def SACCADE_DELAY_AFTER_TRACK_MS : Nat := 2000

/-- `SACCADE_INTERVAL_MS` from `firmware/include/config.h`. -/
def SACCADE_INTERVAL_MS : Nat := 1500

/-- The float literal `3.4028235E+38` (FLT_MAX) that initializes
`best_avg_dist` in `process_measurement_data`, as an exact rational. -/
def FLT_MAX : ℚ := mkRat (34028235 * 10 ^ 31) 1

/-! ### ToF detector data model (tof_sensor.h / tof_sensor.cpp) -/

/-- The 8x8 measurement data of the VL53L5CX sensor: for each linear zone
index `r * 8 + c` a distance in mm (`uint16_t`) and a status code
(`uint8_t`, 5 = valid). Indices outside `0..63` are never read by the
modelled code. -/
structure VL53L5CXResults where
  distance_mm : Nat → Nat
  target_status : Nat → Nat

/-- `struct TofTarget` from `tof_sensor.h`, with the two float coordinates
modelled as rationals.  `match_score` is declared `long` there, so it is an
integer field: storing the float average into it truncates toward zero. -/
structure TofTarget where
  x : ℚ
  y : ℚ
  distance_mm : Nat
  is_valid : Bool
  min_dist_pixel_x : Int
  min_dist_pixel_y : Int
  match_score : Int
deriving DecidableEq

/-- The initializer `{0, 0, 0, false, -1, -1, 0}` of the `current_target`
global in `tof_sensor.cpp`. -/
def initTofTarget : TofTarget :=
  { x := 0, y := 0, distance_mm := 0, is_valid := false,
    min_dist_pixel_x := -1, min_dist_pixel_y := -1, match_score := 0 }

/-- The iteration order of the two nested neighbor loops
`for dy in -1..1, for dx in -1..1` in `process_measurement_data`:
pairs `(dy, dx)`. -/
def neighborOffsets : List (Int × Int) :=
  [(-1, -1), (-1, 0), (-1, 1), (0, -1), (0, 0), (0, 1), (1, -1), (1, 0), (1, 1)]

/-- One iteration of the 3x3 window loop body: if the neighbor
`(ny, nx) = (r + dy, c + dx)` is inside the 8x8 grid, has status 5 and
distance below `MAX_DIST_TOF`, add its distance to the running sum and bump
the reliable-pixel count. -/
def windowStep (data : VL53L5CXResults) (r c : Int) (acc : Nat × Nat)
    (d : Int × Int) : Nat × Nat :=
  let ny := r + d.1
  let nx := c + d.2
  if 0 ≤ nx ∧ nx < 8 ∧ 0 ≤ ny ∧ ny < 8 then
    let neighbor_index := (ny * 8 + nx).toNat
    if data.target_status neighbor_index = 5 ∧
        data.distance_mm neighbor_index < MAX_DIST_TOF then
      (acc.1 + data.distance_mm neighbor_index, acc.2 + 1)
    else acc
  else acc

/-- The `(distance_sum, reliable_pixel_count)` pair computed by the 3x3
window loops of `process_measurement_data` around center `(r, c)`. -/
def windowStats (data : VL53L5CXResults) (r c : Int) : Nat × Nat :=
  neighborOffsets.foldl (windowStep data r c) (0, 0)

/-- One iteration of the candidate-center scan in
`process_measurement_data`, for the center with linear index
`center_index = r * 8 + c`.  The state is the pair
`(best_avg_dist, best_target_index)`.  The float average
`(float)distance_sum / reliable_pixel_count` is modelled by the exact
rational `mkRat distance_sum reliable_pixel_count`. -/
def scanStep (data : VL53L5CXResults) (st : ℚ × Int) (center_index : Nat) :
    ℚ × Int :=
  if data.target_status center_index ≠ 5 ∨
      MAX_DIST_TOF ≤ data.distance_mm center_index then st
  else
    let stats := windowStats data ((center_index : Int) / 8)
      ((center_index : Int) % 8)
    if MIN_RELIABLE_PIXELS_IN_WINDOW ≤ stats.2 then
      let avg_dist := mkRat stats.1 stats.2
      if avg_dist < st.1 then (avg_dist, (center_index : Int)) else st
    else st

/-- The full 64-center scan of `process_measurement_data`: the centers are
visited in row-major order `center_index = r * 8 + c`, starting from
`best_avg_dist = FLT_MAX`, `best_target_index = -1`. -/
def scanFrame (data : VL53L5CXResults) : ℚ × Int :=
  (List.range 64).foldl (scanStep data) (FLT_MAX, -1)

/-- The C conversion of a `float` value to a `long` performed by
`current_target.match_score = best_avg_dist;` (tof_sensor.cpp line 208):
truncation toward zero, which on an exact rational is the T-division of its
numerator by its denominator. -/
def float_to_long (q : ℚ) : Int := q.num.tdiv (q.den : Int)

/-- `process_measurement_data` from `tof_sensor.cpp` (lines 152-216): scans
the frame and either fills a fresh target from the best center (note the
transposition: `x` comes from the row `pixel_y`, `y` from the column
`pixel_x`), or invalidates the current target, keeping its `x`, `y` and
`distance_mm` fields. -/
def process_measurement_data (data : VL53L5CXResults)
    (current_target : TofTarget) : TofTarget :=
  let best := scanFrame data
  if best.2 ≠ -1 then
    let pixel_y := best.2 / 8
    let pixel_x := best.2 % 8
    { x := ((pixel_y : ℚ) - 3.5) / 3.5
      y := ((pixel_x : ℚ) - 3.5) / 3.5
      distance_mm := data.distance_mm best.2.toNat
      is_valid := true
      min_dist_pixel_x := pixel_x
      min_dist_pixel_y := pixel_y
      match_score := float_to_long best.1 }
  else
    { current_target with
      is_valid := false
      min_dist_pixel_x := -1
      min_dist_pixel_y := -1
      match_score := 0 }

/-! Specification-side predicates for the detector, written from the spec
sentences of §4.1 / §8 to compare against the embedding. -/

/-- A center cell qualifies: valid status, distance below threshold, and at
least `MIN_RELIABLE_PIXELS_IN_WINDOW` valid-and-below-threshold cells in its
(edge-clamped) 3x3 window. -/
def qualifiesAt (data : VL53L5CXResults) (i : Nat) : Prop :=
  data.target_status i = 5 ∧ data.distance_mm i < MAX_DIST_TOF ∧
    MIN_RELIABLE_PIXELS_IN_WINDOW ≤ (windowStats data ((i : Int) / 8) ((i : Int) % 8)).2

instance (data : VL53L5CXResults) (i : Nat) : Decidable (qualifiesAt data i) := by
  unfold qualifiesAt; infer_instance

/-- The average distance of the valid-and-below-threshold cells of the 3x3
window around center `i`. -/
def windowAvg (data : VL53L5CXResults) (i : Nat) : ℚ :=
  mkRat ((windowStats data ((i : Int) / 8) ((i : Int) % 8)).1)
    ((windowStats data ((i : Int) / 8) ((i : Int) % 8)).2)

/-! ### Gaze state machine (eye_logic.cpp) -/

/-- The module-private mutable state of `eye_logic.cpp`: the two
`EyePosition` globals (`NUM_SCREEN = 2`, kept as a list so the per-eye loop
is a map), the saccade variables and the tracking variables. -/
structure EyeLogicState where
  eye_positions : List (ℚ × ℚ)
  last_saccade_time : Nat
  saccade_target_x : ℚ
  saccade_target_y : ℚ
  last_track_time : Nat
  last_known_target_x : ℚ
  last_known_target_y : ℚ
deriving DecidableEq

/-- `uint32_t` subtraction `a - b` as performed on the values returned by
`millis()`. -/
def u32sub (a b : Nat) : Nat :=
  ((a % 4294967296) + 4294967296 - (b % 4294967296)) % 4294967296

/-- The per-axis smoothing line
`eye_positions[i].x += (final_target_x - eye_positions[i].x) * LERP_SPEED`
of `update_eye_positions`, with the lerp factor as a parameter. -/
def lerp_step (p goal ls : ℚ) : ℚ := p + (goal - p) * ls

/-- `update_eye_positions` from `eye_logic.cpp` with `TOF_CALIBRATION_MODE`
set to 0 (the configured value).  `now` is the value `millis()` returns
during this tick and `rx`, `ry` are the values the two `random(-100, 101)`
calls would return (the Arduino RNG is external input; its contract is a
result in `[-100, 100]`).  The float division `random(-100,101) / 100.0f`
is modelled by the exact rational `mkRat rx 100`.  `ls` is the configured
`LERP_SPEED`. -/
def update_eye_positions (ls : ℚ) (s : EyeLogicState) (target : TofTarget)
    (now : Nat) (rx ry : Int) : EyeLogicState :=
  if target.is_valid then
    { s with
      last_track_time := now
      last_known_target_x := target.x
      last_known_target_y := target.y
      eye_positions := s.eye_positions.map
        (fun p => (lerp_step p.1 target.x ls, lerp_step p.2 target.y ls)) }
  else
    let s' :=
      if SACCADE_DELAY_AFTER_TRACK_MS < u32sub now s.last_track_time then
        if SACCADE_INTERVAL_MS < u32sub now s.last_saccade_time then
          { s with
            last_saccade_time := now
            saccade_target_x := mkRat rx 100
            saccade_target_y := mkRat ry 100 }
        else s
      else s
    { s' with
      eye_positions := s'.eye_positions.map
        (fun p => (lerp_step p.1 s'.saccade_target_x ls,
                   lerp_step p.2 s'.saccade_target_y ls)) }

/-- A run of ticks of the gaze state machine: each element of `inputs` is
one tick's `(target, millis value, random x, random y)`. -/
def runEyeLogic (ls : ℚ) (s : EyeLogicState)
    (inputs : List (TofTarget × Nat × Int × Int)) : EyeLogicState :=
  inputs.foldl (fun st inp => update_eye_positions ls st inp.1 inp.2.1 inp.2.2.1 inp.2.2.2) s

/-- The executions in which every tick without a valid target happens within
the track-loss grace period of the then-current `last_track_time` (the
lost-and-regained-quickly scenarios of §8). -/
def graceTight (ls : ℚ) : EyeLogicState → List (TofTarget × Nat × Int × Int) → Bool
  | _, [] => true
  | s, (t, now, rx, ry) :: rest =>
    (t.is_valid || decide (u32sub now s.last_track_time ≤ SACCADE_DELAY_AFTER_TRACK_MS)) &&
      graceTight ls (update_eye_positions ls s t now rx ry) rest

/-- `n`-fold iteration of the smoothing step toward a fixed goal `g`,
starting from `p0`: the position of one eye axis after `n` ticks with an
unchanging goal. -/
def lerpIter (ls g p0 : ℚ) : Nat → ℚ
  | 0 => p0
  | n + 1 => lerp_step (lerpIter ls g p0 n) g ls

/-! ### Compositor (drawing_tools.cpp) -/

/-- The value of an `(int16_t)` cast of an `int` value. -/
def wrap16 (v : Int) : Int := (v + 32768) % 65536 - 32768

/-- Models the `(int16_t)sqrt(radius_sq - dist_y_sq)` call of
`precalculate_scanlines`: the number of positive `k ≤ 120` with
`k * k ≤ m`.  For every `m ≤ 14400 = radius_sq` (the only arguments that
occur) this equals `⌊√m⌋`, which is what the double-precision `sqrt`
truncates to. -/
def floor_sqrt (m : Nat) : Nat :=
  ((List.range 121).filter (fun k => k * k ≤ m)).length - 1

/-- `precalculate_scanlines` from `drawing_tools.cpp` (lines 103-120): the
visible horizontal range `(x_start, x_end)` of display row `y`, or
`(-1, -1)` when the row is outside the circular mask. -/
def circular_scanlines (y : Nat) : Int × Int :=
  let screen_center : Int := (SCR_WD : Int) / 2
  let radius_sq : Int := screen_center * screen_center
  let dist_y : Int := (y : Int) - screen_center
  let dist_y_sq := dist_y * dist_y
  if dist_y_sq < radius_sq then
    let x_extent : Int := (floor_sqrt (radius_sq - dist_y_sq).toNat : Int)
    (screen_center - x_extent, screen_center + x_extent)
  else
    (-1, -1)

/-- `swap_color_bytes` from `drawing_tools.cpp`:
`(color << 8) | (color >> 8)` truncated back to `uint16_t`; for
`color < 65536` the two halves occupy disjoint bits, so the bitwise or is
addition. -/
def swap_color_bytes (color : Nat) : Nat := (color * 256 + color / 256) % 65536

/-- The eyelid cutoff `(int16_t)((eyelid_level / 128.0f) * (scaled_height / 2.0f))`
of `draw_eye_image`.  `eyelid_level` is a `uint8_t` (hence `% 256`); the
float product `(lvl / 128) * 175` is exact in single precision for
`lvl ≤ 255`, so its truncation is `lvl * 175 / 128` in `Nat`. -/
def eyelid_cutoff (eyelid_level : Nat) : Nat := (eyelid_level % 256) * 175 / 128

/-- One loop iteration of `draw_eye_image`: the destination coordinates, the
texture coordinates, and the source color read for one destination pixel.
The pixel is written (after `swap_color_bytes`) unless `color` equals
`TRANSPARENT_COLOR_KEY`. -/
structure PixelEv where
  row : Int
  col : Int
  srcY : Int
  srcX : Int
  color : Nat
deriving DecidableEq

/-- The pixel events produced by one iteration `y` of the outer row loop of
`draw_eye_image` (lines 260-304).  `xp`, `yp` are the (int16) position
arguments and `cutoff` the eyelid cutoff.  The two fixed-point `uint32_t`
accumulators advance by `src_increment = 65536` once per iteration of their
loops, so at iteration `i` they hold their initial value plus `i * 65536`,
reduced `% 2^32`. -/
def drawRowEvents (tex : Int → Nat) (xp yp : Int) (cutoff : Nat) (y : Nat) :
    List PixelEv :=
  let dest_y := wrap16 (yp + (y : Int))
  if dest_y < 0 ∨ (SCR_HT : Int) ≤ dest_y ∨ (y : Int) < (cutoff : Int) ∨
      (EYE_IMAGE_HEIGHT : Int) - (cutoff : Int) ≤ (y : Int) then
    []
  else
    let sl := circular_scanlines dest_y.toNat
    if sl.1 = -1 then []
    else
      let x_start_draw := max sl.1 xp
      let x_end_draw := min sl.2 (wrap16 (xp + (EYE_IMAGE_WIDTH : Int)))
      let src_y : Int := wrap16 ((y * 65536 % 4294967296) / 65536 : Nat)
      (List.range (x_end_draw - x_start_draw).toNat).map (fun (i : Nat) =>
        let dest_x := x_start_draw + (i : Int)
        let accum_base : Nat := (x_start_draw - xp).toNat
        let src_x_accum : Nat := (accum_base * 65536 + i * 65536) % 4294967296
        let src_x : Int := wrap16 ((src_x_accum / 65536 : Nat))
        { row := dest_y, col := dest_x, srcY := src_y, srcX := src_x,
          color := tex (src_y * (EYE_IMAGE_WIDTH : Int) + src_x) % 65536 })

/-- All pixel events of one `draw_eye_image(x_pos, y_pos, eyelid_level)`
call, in execution order.  The `int16_t` parameters are wrapped at entry. -/
def pixelEvents (tex : Int → Nat) (x_pos y_pos : Int) (eyelid_level : Nat) :
    List PixelEv :=
  (List.range EYE_IMAGE_HEIGHT).flatMap
    (drawRowEvents tex (wrap16 x_pos) (wrap16 y_pos) (eyelid_cutoff eyelid_level))

/-- The effect of one pixel event on the framebuffer (indexed row, column):
colors equal to the transparency key are skipped, every other color is
written byte-swapped. -/
def applyEv (fb : Int → Int → Nat) (e : PixelEv) : Int → Int → Nat :=
  if e.color = TRANSPARENT_COLOR_KEY then fb
  else fun r c => if r = e.row ∧ c = e.col then swap_color_bytes e.color else fb r c

/-- `draw_eye_image` from `drawing_tools.cpp` (lines 244-305) as a
framebuffer transformer: the texture `tex` is the loaded eye image (indexed
linearly, `src_y * EYE_IMAGE_WIDTH + src_x`; reads are `uint16_t`, hence
`% 65536` in the event color) and `fb` the active framebuffer. -/
def draw_eye_image (tex : Int → Nat) (fb : Int → Int → Nat)
    (x_pos y_pos : Int) (eyelid_level : Nat) : Int → Int → Nat :=
  (pixelEvents tex x_pos y_pos eyelid_level).foldl applyEv fb

/-! ### Concrete frames and states used by witnesses and counterexamples -/

/-- The §8 scenario frame: a single cell of distance 150 at `(row 3, col 5)`
(linear index 29), its 8 neighbors valid at distance 300, everything else
invalid (status 0). -/
def frameC2 : VL53L5CXResults where
  distance_mm i := if i = 29 then 150 else
    if i ∈ [20, 21, 22, 28, 30, 36, 37, 38] then 300 else 1000
  target_status i := if i ∈ [20, 21, 22, 28, 29, 30, 36, 37, 38] then 5 else 0

/-- A frame in which every cell is invalid (status 0). -/
def frameEmpty : VL53L5CXResults where
  distance_mm _ := 0
  target_status _ := 0

/-- A valid target used to instantiate theorems about the gaze controller. -/
def tofValidSample : TofTarget :=
  { x := mkRat 1 2, y := mkRat (-1) 4, distance_mm := 250, is_valid := true,
    min_dist_pixel_x := 2, min_dist_pixel_y := 5, match_score := 250 }

/-- A gaze controller state: a track was last seen at `millis() = 1000`. -/
def sC6 : EyeLogicState :=
  { eye_positions := [(0, 0), (0, 0)], last_saccade_time := 0,
    saccade_target_x := mkRat 3 10, saccade_target_y := mkRat (-2) 5,
    last_track_time := 1000, last_known_target_x := 0, last_known_target_y := 0 }

/-- Three ticks in which the target is lost at 1500 ms, regained at 1600 ms
and lost again at 2500 ms, each loss within the 2000 ms grace period of the
preceding track. -/
def inputsC6 : List (TofTarget × Nat × Int × Int) :=
  [(initTofTarget, 1500, 30, 40), (tofValidSample, 1600, 0, 0),
   (initTofTarget, 2500, -50, 60)]

/-- A texture whose pixel at `(src_y = 173, src_x = 0)` is the transparent
key and whose other pixels are the color 7. -/
def texC4 : Int → Nat := fun i => if i = 173 * 350 then 0 else 7

/-! ### Theorems: detector helper lemmas -/

/-- One window iteration preserves `distance_sum ≤ 399 * reliable_pixel_count`
(each counted distance is below `MAX_DIST_TOF = 400`). -/
theorem windowStep_bound (data : VL53L5CXResults) (r c : Int) (acc : Nat × Nat)
    (d : Int × Int) (h : acc.1 ≤ 399 * acc.2) :
    (windowStep data r c acc d).1 ≤ 399 * (windowStep data r c acc d).2 := by
  unfold windowStep
  dsimp only
  split
  · split
    · rename_i hcond
      have hd : data.distance_mm ((r + d.1) * 8 + (c + d.2)).toNat < MAX_DIST_TOF := hcond.2
      simp only [MAX_DIST_TOF] at hd
      simp only []
      omega
    · exact h
  · exact h

/-- The window sum is at most 399 times the reliable-pixel count. -/
theorem windowStats_sum_le (data : VL53L5CXResults) (r c : Int) :
    (windowStats data r c).1 ≤ 399 * (windowStats data r c).2 := by
  have h : ∀ (l : List (Int × Int)) (acc : Nat × Nat), acc.1 ≤ 399 * acc.2 →
      (l.foldl (windowStep data r c) acc).1 ≤
        399 * (l.foldl (windowStep data r c) acc).2 := by
    intro l
    induction l with
    | nil => intro acc hacc; simpa using hacc
    | cons d rest ih =>
      intro acc hacc
      simp only [List.foldl_cons]
      exact ih _ (windowStep_bound data r c acc d hacc)
  exact h neighborOffsets (0, 0) (by simp)

/-- A qualifying center's window average is below the `FLT_MAX` initializer. -/
theorem windowAvg_lt_FLT (data : VL53L5CXResults) (i : Nat)
    (h : qualifiesAt data i) : windowAvg data i < FLT_MAX := by
  obtain ⟨-, -, hc⟩ := h
  simp only [MIN_RELIABLE_PIXELS_IN_WINDOW] at hc
  have hsum := windowStats_sum_le data ((i : Int) / 8) ((i : Int) % 8)
  unfold windowAvg FLT_MAX
  rw [Rat.mkRat_eq_div, Rat.mkRat_eq_div]
  have h2 : (0 : ℚ) < ((windowStats data ((i : Int) / 8) ((i : Int) % 8)).2 : ℚ) := by
    exact_mod_cast Nat.lt_of_lt_of_le (by norm_num) hc
  have h399 : ((windowStats data ((i : Int) / 8) ((i : Int) % 8)).1 : ℚ) /
      ((windowStats data ((i : Int) / 8) ((i : Int) % 8)).2 : ℚ) ≤ 399 := by
    rw [div_le_iff₀ h2]
    have : ((windowStats data ((i : Int) / 8) ((i : Int) % 8)).1 : ℚ) ≤
        399 * ((windowStats data ((i : Int) / 8) ((i : Int) % 8)).2 : ℚ) := by
      exact_mod_cast hsum
    linarith
  have hbig : (399 : ℚ) < ((34028235 * 10 ^ 31 : ℤ) : ℚ) / ((1 : ℕ) : ℚ) := by
    norm_num
  exact lt_of_le_of_lt h399 hbig

/-- The center guard of `scanStep` exactly rejects non-qualifying centers:
when center `i` does not qualify, the scan state is unchanged. -/
theorem scanStep_of_not_qual (data : VL53L5CXResults) (st : ℚ × Int) (i : Nat)
    (h : ¬ qualifiesAt data i) : scanStep data st i = st := by
  unfold scanStep
  unfold qualifiesAt at h
  push_neg at h
  dsimp only
  split
  · rfl
  · rename_i hg
    push_neg at hg
    split
    · rename_i hcnt
      have := h hg.1 (by omega)
      omega
    · rfl

/-- On a qualifying center, `scanStep` keeps the state unless the window
average strictly improves. -/
theorem scanStep_of_qual (data : VL53L5CXResults) (st : ℚ × Int) (i : Nat)
    (h : qualifiesAt data i) :
    scanStep data st i =
      if windowAvg data i < st.1 then (windowAvg data i, (i : Int)) else st := by
  obtain ⟨h1, h2, h3⟩ := h
  unfold scanStep windowAvg
  rw [if_neg (by push_neg; exact ⟨h1, by omega⟩)]
  rw [if_pos h3]

/-- Characterization of the candidate scan over the first `n` centers:
either nothing qualifies and the state is untouched, or the state holds the
first (in row-major order) center among those with minimal window average. -/
theorem scanRange_spec (data : VL53L5CXResults) (n : Nat) :
    ((List.range n).foldl (scanStep data) (FLT_MAX, -1) = (FLT_MAX, (-1 : Int)) ∧
      ∀ i, i < n → ¬ qualifiesAt data i) ∨
    (∃ w, w < n ∧ qualifiesAt data w ∧
      (List.range n).foldl (scanStep data) (FLT_MAX, -1) = (windowAvg data w, (w : Int)) ∧
      ∀ j, j < n → qualifiesAt data j →
        (windowAvg data w < windowAvg data j ∨
          (windowAvg data w = windowAvg data j ∧ w ≤ j))) := by
  induction n with
  | zero =>
    left
    exact ⟨rfl, by omega⟩
  | succ n ih =>
    rw [List.range_succ, List.foldl_append, List.foldl_cons, List.foldl_nil]
    by_cases hq : qualifiesAt data n
    · rcases ih with ⟨heq, hnone⟩ | ⟨w, hw, hqw, heq, hmin⟩
      · rw [heq, scanStep_of_qual data _ n hq]
        have hlt : windowAvg data n < FLT_MAX := windowAvg_lt_FLT data n hq
        right
        refine ⟨n, by omega, hq, by rw [if_pos hlt], ?_⟩
        intro j hj hqj
        rcases Nat.lt_succ_iff_lt_or_eq.mp hj with h | h
        · exact absurd hqj (hnone j h)
        · subst h; right; exact ⟨rfl, le_refl _⟩
      · rw [heq, scanStep_of_qual data _ n hq]
        by_cases hlt : windowAvg data n < windowAvg data w
        · right
          refine ⟨n, by omega, hq, by rw [if_pos hlt], ?_⟩
          intro j hj hqj
          rcases Nat.lt_succ_iff_lt_or_eq.mp hj with h | h
          · left
            rcases hmin j h hqj with h2 | ⟨h2, _⟩
            · exact lt_trans hlt h2
            · rw [← h2]; exact hlt
          · subst h; right; exact ⟨rfl, le_refl _⟩
        · right
          refine ⟨w, by omega, hqw, by rw [if_neg hlt], ?_⟩
          intro j hj hqj
          rcases Nat.lt_succ_iff_lt_or_eq.mp hj with h | h
          · exact hmin j h hqj
          · subst h
            rcases lt_or_eq_of_le (not_lt.mp hlt) with h2 | h2
            · left; exact h2
            · right; exact ⟨h2, by omega⟩
    · rw [scanStep_of_not_qual data _ n hq]
      rcases ih with ⟨heq, hnone⟩ | ⟨w, hw, hqw, heq, hmin⟩
      · left
        refine ⟨heq, ?_⟩
        intro i hi
        rcases Nat.lt_succ_iff_lt_or_eq.mp hi with h | h
        · exact hnone i h
        · subst h; exact hq
      · right
        refine ⟨w, by omega, hqw, heq, ?_⟩
        intro j hj hqj
        rcases Nat.lt_succ_iff_lt_or_eq.mp hj with h | h
        · exact hmin j h hqj
        · subst h; exact absurd hqj hq

/-! ### Claim theorems: ToF detector -/

/-- C1: for every 8x8 depth frame, the detector's winning target is the
cell that minimizes the average distance of the valid-and-below-threshold
cells of its 3x3 window (clamped at grid edges), taken over exactly those
center cells that are valid, below `MAX_DIST_TOF`, and whose window
contains at least `MIN_RELIABLE_PIXELS_IN_WINDOW = 4` valid-and-below-
threshold cells; on ties the first center in row-major scan order wins.
The stored `long` match score is the winner's average truncated toward
zero. -/
theorem detector_selects_first_minimal_center
    (data : VL53L5CXResults) (prev : TofTarget) (i : Nat)
    (hi : i < 64) (hq : qualifiesAt data i)
    (hmin : ∀ j, j < 64 → qualifiesAt data j → windowAvg data i ≤ windowAvg data j)
    (htie : ∀ j, j < 64 → qualifiesAt data j → windowAvg data j = windowAvg data i → i ≤ j) :
    (process_measurement_data data prev).is_valid = true ∧
    (process_measurement_data data prev).min_dist_pixel_y = (i : Int) / 8 ∧
    (process_measurement_data data prev).min_dist_pixel_x = (i : Int) % 8 ∧
    (process_measurement_data data prev).match_score =
      float_to_long (windowAvg data i) := by
  rcases scanRange_spec data 64 with ⟨-, hnone⟩ | ⟨w, hw, hqw, heq, hminw⟩
  · exact absurd hq (hnone i hi)
  · have hwi : w = i := by
      rcases hminw i hi hq with h | ⟨he, hle⟩
      · exact absurd (hmin w hw hqw) (not_le.mpr h)
      · have := htie w hw hqw he
        omega
    subst hwi
    have hsf : scanFrame data = (windowAvg data w, (w : Int)) := heq
    have hne : ((windowAvg data w, (w : Int)) : ℚ × Int).2 ≠ -1 := by
      show (w : Int) ≠ -1
      omega
    unfold process_measurement_data
    rw [hsf, if_pos hne]
    simp

/-- Witness for C1: on `frameC2`, the first minimal qualifying center is the
linear index 20, i.e. cell (row 2, col 4). -/
theorem detector_selects_first_minimal_center_witness :
    (process_measurement_data frameC2 initTofTarget).is_valid = true ∧
    (process_measurement_data frameC2 initTofTarget).min_dist_pixel_y = (20 : Int) / 8 ∧
    (process_measurement_data frameC2 initTofTarget).min_dist_pixel_x = (20 : Int) % 8 ∧
    (process_measurement_data frameC2 initTofTarget).match_score =
      float_to_long (windowAvg frameC2 20) :=
  detector_selects_first_minimal_center frameC2 initTofTarget 20 (by decide)
    (by decide) (by decide) (by decide)

/-- C2 counterexample: on the §8 scenario frame (single cell of distance
150 at (row 3, col 5), its 8 neighbors at 300), the detector does NOT
return the center (3,5); it returns (2,4), whose window average
1050/4 = 262.5 is smaller than the center's 2550/9 ≈ 283.3. -/
theorem scenario_winner_refutes_claimed_center :
    (process_measurement_data frameC2 initTofTarget).min_dist_pixel_y = 2 ∧
    (process_measurement_data frameC2 initTofTarget).min_dist_pixel_x = 4 ∧
    ¬ ((process_measurement_data frameC2 initTofTarget).min_dist_pixel_y = 3 ∧
       (process_measurement_data frameC2 initTofTarget).min_dist_pixel_x = 5) := by
  decide

/-- C2 amended: on the §8 scenario frame the detector returns the valid
target at (row 2, col 4) — the first corner of the 3x3 neighbor block, whose
4-cell window average 262.5 beats the center's 9-cell average 283.3 — with
the row mapped to the x axis and the column to the y axis. -/
theorem scenario_winner_is_first_corner :
    (process_measurement_data frameC2 initTofTarget).is_valid = true ∧
    (process_measurement_data frameC2 initTofTarget).min_dist_pixel_y = 2 ∧
    (process_measurement_data frameC2 initTofTarget).min_dist_pixel_x = 4 ∧
    (process_measurement_data frameC2 initTofTarget).x = ((2 : ℚ) - 3.5) / 3.5 ∧
    (process_measurement_data frameC2 initTofTarget).y = ((4 : ℚ) - 3.5) / 3.5 := by
  refine ⟨by decide, by decide, by decide, ?_, ?_⟩
  · have hx : (process_measurement_data frameC2 initTofTarget).x =
        ((((20 : Int) / 8 : Int) : ℚ) - 3.5) / 3.5 := rfl
    rw [hx]
    norm_num
  · have hy : (process_measurement_data frameC2 initTofTarget).y =
        ((((20 : Int) % 8 : Int) : ℚ) - 3.5) / 3.5 := rfl
    rw [hy]
    norm_num

/-- C7: when every cell of the frame is invalid or at/over the distance
threshold, the detector reports no target: `valid = false` with sentinel
grid coordinates (-1, -1) (a normal result, produced by the same code path,
not an error). -/
theorem no_qualifying_cell_gives_invalid_target
    (data : VL53L5CXResults) (prev : TofTarget)
    (h : ∀ i, i < 64 → ¬ (data.target_status i = 5 ∧ data.distance_mm i < MAX_DIST_TOF)) :
    (process_measurement_data data prev).is_valid = false ∧
    (process_measurement_data data prev).min_dist_pixel_x = -1 ∧
    (process_measurement_data data prev).min_dist_pixel_y = -1 := by
  have hsf : scanFrame data = (FLT_MAX, -1) := by
    rcases scanRange_spec data 64 with ⟨heq, -⟩ | ⟨w, hw, hqw, -, -⟩
    · exact heq
    · exact absurd ⟨hqw.1, hqw.2.1⟩ (h w hw)
  unfold process_measurement_data
  rw [hsf]
  norm_num

/-- Witness for C7: the all-invalid frame. -/
theorem no_qualifying_cell_gives_invalid_target_witness :
    (process_measurement_data frameEmpty initTofTarget).is_valid = false ∧
    (process_measurement_data frameEmpty initTofTarget).min_dist_pixel_x = -1 ∧
    (process_measurement_data frameEmpty initTofTarget).min_dist_pixel_y = -1 :=
  no_qualifying_cell_gives_invalid_target frameEmpty initTofTarget (by decide)

/-- C5 counterexample: the detector output is NOT a function of the depth
grid alone.  On the all-invalid frame, two different prior target states
give different outputs (the `x`, `y`, `distance_mm` fields of the previous
target survive the invalidating branch). -/
theorem detector_output_depends_on_previous_target :
    process_measurement_data frameEmpty initTofTarget ≠
      process_measurement_data frameEmpty { initTofTarget with x := 1 } := by
  decide

/-- C5 amended: the detector's validity flag, grid coordinates and match
score are functions of the depth grid alone, and when a target is found
every field is freshly computed (full output equality); but in the
no-target branch the `x`, `y` and `distance_mm` fields keep the previous
target's values. -/
theorem detector_projections_deterministic
    (data : VL53L5CXResults) (t t' : TofTarget) :
    (process_measurement_data data t).is_valid = (process_measurement_data data t').is_valid ∧
    (process_measurement_data data t).min_dist_pixel_x = (process_measurement_data data t').min_dist_pixel_x ∧
    (process_measurement_data data t).min_dist_pixel_y = (process_measurement_data data t').min_dist_pixel_y ∧
    (process_measurement_data data t).match_score = (process_measurement_data data t').match_score ∧
    ((process_measurement_data data t).is_valid = true →
      process_measurement_data data t = process_measurement_data data t') ∧
    ((process_measurement_data data t).is_valid = false →
      (process_measurement_data data t).x = t.x ∧
      (process_measurement_data data t).y = t.y ∧
      (process_measurement_data data t).distance_mm = t.distance_mm) := by
  unfold process_measurement_data
  by_cases hb : (scanFrame data).2 ≠ -1
  · rw [if_pos hb, if_pos hb]
    simp
  · rw [if_neg hb, if_neg hb]
    simp

/-- Witness for C5's amended statement, on the scenario frame and two
different prior targets. -/
theorem detector_projections_deterministic_witness :
    (process_measurement_data frameC2 initTofTarget).is_valid =
      (process_measurement_data frameC2 { initTofTarget with x := 1 }).is_valid ∧
    (process_measurement_data frameC2 initTofTarget).min_dist_pixel_x =
      (process_measurement_data frameC2 { initTofTarget with x := 1 }).min_dist_pixel_x ∧
    (process_measurement_data frameC2 initTofTarget).min_dist_pixel_y =
      (process_measurement_data frameC2 { initTofTarget with x := 1 }).min_dist_pixel_y ∧
    (process_measurement_data frameC2 initTofTarget).match_score =
      (process_measurement_data frameC2 { initTofTarget with x := 1 }).match_score ∧
    ((process_measurement_data frameC2 initTofTarget).is_valid = true →
      process_measurement_data frameC2 initTofTarget =
        process_measurement_data frameC2 { initTofTarget with x := 1 }) ∧
    ((process_measurement_data frameC2 initTofTarget).is_valid = false →
      (process_measurement_data frameC2 initTofTarget).x = initTofTarget.x ∧
      (process_measurement_data frameC2 initTofTarget).y = initTofTarget.y ∧
      (process_measurement_data frameC2 initTofTarget).distance_mm = initTofTarget.distance_mm) :=
  detector_projections_deterministic frameC2 initTofTarget { initTofTarget with x := 1 }

/-! ### Theorems: gaze state machine -/

/-- If the target is valid, or the grace period has not elapsed since the
last valid track, or the saccade interval has not elapsed since the last
goal change, then the saccade goal and its timestamp are untouched by the
tick. -/
theorem saccade_goal_kept (ls : ℚ) (s : EyeLogicState) (t : TofTarget)
    (now : Nat) (rx ry : Int)
    (h : t.is_valid = true ∨ u32sub now s.last_track_time ≤ SACCADE_DELAY_AFTER_TRACK_MS ∨
      u32sub now s.last_saccade_time ≤ SACCADE_INTERVAL_MS) :
    (update_eye_positions ls s t now rx ry).saccade_target_x = s.saccade_target_x ∧
    (update_eye_positions ls s t now rx ry).saccade_target_y = s.saccade_target_y ∧
    (update_eye_positions ls s t now rx ry).last_saccade_time = s.last_saccade_time := by
  unfold update_eye_positions
  by_cases hv : t.is_valid
  · rw [if_pos hv]
    exact ⟨rfl, rfl, rfl⟩
  · rw [if_neg hv]
    rcases h with h | h | h
    · exact absurd h (by simpa using hv)
    · rw [if_neg (by omega)]
      exact ⟨rfl, rfl, rfl⟩
    · by_cases ha : SACCADE_DELAY_AFTER_TRACK_MS < u32sub now s.last_track_time
      · rw [if_pos ha, if_neg (by omega)]
        exact ⟨rfl, rfl, rfl⟩
      · rw [if_neg ha]
        exact ⟨rfl, rfl, rfl⟩

/-- Over a whole run in which every target loss happens inside the grace
period, the saccade goal never changes. -/
theorem saccade_goal_kept_run (ls : ℚ) (s : EyeLogicState)
    (inputs : List (TofTarget × Nat × Int × Int))
    (h : graceTight ls s inputs = true) :
    (runEyeLogic ls s inputs).saccade_target_x = s.saccade_target_x ∧
    (runEyeLogic ls s inputs).saccade_target_y = s.saccade_target_y := by
  induction inputs generalizing s with
  | nil => exact ⟨rfl, rfl⟩
  | cons inp rest ih =>
    obtain ⟨t, now, rx, ry⟩ := inp
    rw [graceTight, Bool.and_eq_true, Bool.or_eq_true, decide_eq_true_iff] at h
    obtain ⟨h1, h2⟩ := h
    have hstep := saccade_goal_kept ls s t now rx ry (by
      rcases h1 with h1 | h1
      · exact Or.inl h1
      · exact Or.inr (Or.inl h1))
    have hrun : runEyeLogic ls s ((t, now, rx, ry) :: rest) =
        runEyeLogic ls (update_eye_positions ls s t now rx ry) rest := rfl
    rw [hrun]
    obtain ⟨hx, hy⟩ := ih (update_eye_positions ls s t now rx ry) h2
    rw [hx, hy, hstep.1, hstep.2.1]
    exact ⟨rfl, rfl⟩

/-- C6: in the idle state a new random saccade goal is drawn only when both
the grace period since the last valid track and the saccade interval since
the last goal change have elapsed (contrapositive: if either timer has not
elapsed, or a target is being tracked, the goal and its timestamp are
untouched); consequently, over every run in which a valid target is lost
and regained within the grace period, the saccade goal is unchanged
throughout. -/
theorem idle_saccade_two_timer_gate :
    (∀ (ls : ℚ) (s : EyeLogicState) (t : TofTarget) (now : Nat) (rx ry : Int),
      (t.is_valid = true ∨ u32sub now s.last_track_time ≤ SACCADE_DELAY_AFTER_TRACK_MS ∨
        u32sub now s.last_saccade_time ≤ SACCADE_INTERVAL_MS) →
      (update_eye_positions ls s t now rx ry).saccade_target_x = s.saccade_target_x ∧
      (update_eye_positions ls s t now rx ry).saccade_target_y = s.saccade_target_y ∧
      (update_eye_positions ls s t now rx ry).last_saccade_time = s.last_saccade_time) ∧
    (∀ (ls : ℚ) (s : EyeLogicState) (inputs : List (TofTarget × Nat × Int × Int)),
      graceTight ls s inputs = true →
      (runEyeLogic ls s inputs).saccade_target_x = s.saccade_target_x ∧
      (runEyeLogic ls s inputs).saccade_target_y = s.saccade_target_y) :=
  ⟨saccade_goal_kept, saccade_goal_kept_run⟩

/-- Witness for C6: the lose-and-regain-within-grace run `inputsC6` leaves
the saccade goal of `sC6` unchanged, and so does the single first tick. -/
theorem idle_saccade_two_timer_gate_witness :
    ((update_eye_positions (mkRat 1 5) sC6 initTofTarget 1500 30 40).saccade_target_x =
        sC6.saccade_target_x ∧
      (update_eye_positions (mkRat 1 5) sC6 initTofTarget 1500 30 40).saccade_target_y =
        sC6.saccade_target_y ∧
      (update_eye_positions (mkRat 1 5) sC6 initTofTarget 1500 30 40).last_saccade_time =
        sC6.last_saccade_time) ∧
    ((runEyeLogic (mkRat 1 5) sC6 inputsC6).saccade_target_x = sC6.saccade_target_x ∧
      (runEyeLogic (mkRat 1 5) sC6 inputsC6).saccade_target_y = sC6.saccade_target_y) :=
  ⟨idle_saccade_two_timer_gate.1 (mkRat 1 5) sC6 initTofTarget 1500 30 40
      (Or.inr (Or.inl (by decide))),
    idle_saccade_two_timer_gate.2 (mkRat 1 5) sC6 inputsC6 (by decide)⟩

/-- The error after `n` smoothing ticks toward a fixed goal decays exactly
geometrically with ratio `1 - ls`. -/
theorem lerpIter_error (ls g p0 : ℚ) (hls : 0 < ls) (hle : ls ≤ 1) (n : Nat) :
    |lerpIter ls g p0 n - g| = |p0 - g| * (1 - ls) ^ n := by
  induction n with
  | zero => simp [lerpIter]
  | succ n ih =>
    have hstep : lerpIter ls g p0 (n + 1) - g = (lerpIter ls g p0 n - g) * (1 - ls) := by
      show lerp_step (lerpIter ls g p0 n) g ls - g = _
      unfold lerp_step
      ring
    rw [hstep, abs_mul, abs_of_nonneg (by linarith : (0 : ℚ) ≤ 1 - ls), ih,
      pow_succ, mul_assoc]

/-- The geometric error bound eventually beats any positive epsilon. -/
theorem lerpIter_converges (ls g p0 ε : ℚ) (hls : 0 < ls) (hle : ls ≤ 1)
    (hε : 0 < ε) : ∃ N, ∀ n, N ≤ n → |lerpIter ls g p0 n - g| < ε := by
  rcases eq_or_lt_of_le (abs_nonneg (p0 - g)) with h0 | h0
  · refine ⟨0, fun n _ => ?_⟩
    rw [lerpIter_error ls g p0 hls hle n, ← h0, zero_mul]
    exact hε
  · have hr1 : 1 - ls < 1 := by linarith
    have hr0 : 0 ≤ 1 - ls := by linarith
    obtain ⟨N, hN⟩ := exists_pow_lt_of_lt_one (div_pos hε h0) hr1
    refine ⟨N, fun n hn => ?_⟩
    rw [lerpIter_error ls g p0 hls hle n]
    have hmono : (1 - ls) ^ n ≤ (1 - ls) ^ N := pow_le_pow_of_le_one hr0 (by linarith) hn
    have : (1 - ls) ^ n < ε / |p0 - g| := lt_of_le_of_lt hmono hN
    calc |p0 - g| * (1 - ls) ^ n < |p0 - g| * (ε / |p0 - g|) := by
          exact mul_lt_mul_of_pos_left this h0
      _ = ε := by field_simp

/-- C8: the per-tick smoothing update is
`position += (goal - position) * lerp_speed`, applied identically to both
eyes; for a fixed goal the error after `n` ticks is exactly
`|p0 - g| * (1 - ls)^n`, which falls below any positive epsilon after a
bounded number of ticks, for every `ls ∈ (0, 1]`. -/
theorem lerp_convergence :
    (∀ (ls : ℚ) (s : EyeLogicState) (t : TofTarget) (now : Nat) (rx ry : Int),
      t.is_valid = true →
      (update_eye_positions ls s t now rx ry).eye_positions =
        s.eye_positions.map (fun p => (lerp_step p.1 t.x ls, lerp_step p.2 t.y ls))) ∧
    (∀ (ls g p0 : ℚ) (n : Nat), 0 < ls → ls ≤ 1 →
      |lerpIter ls g p0 n - g| = |p0 - g| * (1 - ls) ^ n) ∧
    (∀ (ls g p0 ε : ℚ), 0 < ls → ls ≤ 1 → 0 < ε →
      ∃ N, ∀ n, N ≤ n → |lerpIter ls g p0 n - g| < ε) := by
  refine ⟨?_, ?_, ?_⟩
  · intro ls s t now rx ry hv
    unfold update_eye_positions
    rw [if_pos hv]
  · intro ls g p0 n hls hle
    exact lerpIter_error ls g p0 hls hle n
  · intro ls g p0 ε hls hle hε
    exact lerpIter_converges ls g p0 ε hls hle hε

/-- Witness for C8: the concrete update on `sC6` with the sample target,
the error formula at `n = 3`, and convergence below 1 from `p0 = 1`. -/
theorem lerp_convergence_witness :
    ((update_eye_positions (mkRat 1 5) sC6 tofValidSample 1600 0 0).eye_positions =
      sC6.eye_positions.map (fun p => (lerp_step p.1 tofValidSample.x (mkRat 1 5),
        lerp_step p.2 tofValidSample.y (mkRat 1 5)))) ∧
    (|lerpIter (mkRat 1 5) 0 1 3 - 0| = |(1 : ℚ) - 0| * (1 - mkRat 1 5) ^ 3) ∧
    (∃ N, ∀ n, N ≤ n → |lerpIter (mkRat 1 5) 0 1 n - 0| < 1) :=
  ⟨lerp_convergence.1 (mkRat 1 5) sC6 tofValidSample 1600 0 0 rfl,
    lerp_convergence.2.1 (mkRat 1 5) 0 1 3 (by decide) (by decide),
    lerp_convergence.2.2 (mkRat 1 5) 0 1 1 (by decide) (by decide) (by decide)⟩

/-- The normalization `(index - 3.5) / 3.5` maps grid indices 0..7 into
`[-1, 1]`. -/
theorem norm_coord_bounds (z : Int) (h0 : 0 ≤ z) (h7 : z ≤ 7) :
    -1 ≤ ((z : ℚ) - 3.5) / 3.5 ∧ ((z : ℚ) - 3.5) / 3.5 ≤ 1 := by
  have hc0 : (0 : ℚ) ≤ (z : ℚ) := by exact_mod_cast h0
  have hc7 : (z : ℚ) ≤ 7 := by exact_mod_cast h7
  constructor
  · rw [le_div_iff₀ (by norm_num : (0 : ℚ) < 3.5)]
    linarith
  · rw [div_le_one (by norm_num : (0 : ℚ) < 3.5)]
    linarith

/-- A single smoothing step keeps the position inside `[-1, 1]` whenever the
goal lies in `[-1, 1]` and the lerp factor is in `(0, 1]`. -/
theorem lerp_step_bounds (p g ls : ℚ) (hp1 : -1 ≤ p) (hp2 : p ≤ 1)
    (hg1 : -1 ≤ g) (hg2 : g ≤ 1) (hls : 0 < ls) (hle : ls ≤ 1) :
    -1 ≤ lerp_step p g ls ∧ lerp_step p g ls ≤ 1 := by
  unfold lerp_step
  constructor
  · nlinarith [mul_nonneg (by linarith : (0 : ℚ) ≤ 1 + g) (le_of_lt hls),
      mul_nonneg (by linarith : (0 : ℚ) ≤ 1 + p) (by linarith : (0 : ℚ) ≤ 1 - ls)]
  · nlinarith [mul_nonneg (by linarith : (0 : ℚ) ≤ 1 - g) (le_of_lt hls),
      mul_nonneg (by linarith : (0 : ℚ) ≤ 1 - p) (by linarith : (0 : ℚ) ≤ 1 - ls)]

/-- A detected target's normalized coordinates lie in `[-1, 1]`. -/
theorem detected_target_in_range (data : VL53L5CXResults) (prev : TofTarget)
    (h : (process_measurement_data data prev).is_valid = true) :
    (-1 ≤ (process_measurement_data data prev).x ∧
      (process_measurement_data data prev).x ≤ 1 ∧
      -1 ≤ (process_measurement_data data prev).y ∧
      (process_measurement_data data prev).y ≤ 1) := by
  rcases scanRange_spec data 64 with ⟨heq, -⟩ | ⟨w, hw, -, heq, -⟩
  · have hsf : scanFrame data = (FLT_MAX, -1) := heq
    unfold process_measurement_data at h
    rw [hsf] at h
    simp at h
  · have hsf : scanFrame data = (windowAvg data w, (w : Int)) := heq
    have hne : ((windowAvg data w, (w : Int)) : ℚ × Int).2 ≠ -1 := by
      show (w : Int) ≠ -1
      omega
    unfold process_measurement_data
    rw [hsf, if_pos hne]
    have hy := norm_coord_bounds ((w : Int) / 8) (by omega) (by omega)
    have hx := norm_coord_bounds ((w : Int) % 8) (by omega) (by omega)
    exact ⟨hy.1, hy.2, hx.1, hx.2⟩

/-- The gaze controller tick preserves the per-eye `[-1, 1]` range and keeps
the saccade goal in range, given in-range inputs. -/
theorem update_preserves_range (ls : ℚ) (s : EyeLogicState) (t : TofTarget)
    (now : Nat) (rx ry : Int)
    (hls : 0 < ls) (hle : ls ≤ 1)
    (heyes : ∀ p ∈ s.eye_positions, -1 ≤ p.1 ∧ p.1 ≤ 1 ∧ -1 ≤ p.2 ∧ p.2 ≤ 1)
    (hsac : -1 ≤ s.saccade_target_x ∧ s.saccade_target_x ≤ 1 ∧
      -1 ≤ s.saccade_target_y ∧ s.saccade_target_y ≤ 1)
    (ht : t.is_valid = true → -1 ≤ t.x ∧ t.x ≤ 1 ∧ -1 ≤ t.y ∧ t.y ≤ 1)
    (hrx : -100 ≤ rx ∧ rx ≤ 100) (hry : -100 ≤ ry ∧ ry ≤ 100) :
    (∀ p ∈ (update_eye_positions ls s t now rx ry).eye_positions,
      -1 ≤ p.1 ∧ p.1 ≤ 1 ∧ -1 ≤ p.2 ∧ p.2 ≤ 1) ∧
    (-1 ≤ (update_eye_positions ls s t now rx ry).saccade_target_x ∧
      (update_eye_positions ls s t now rx ry).saccade_target_x ≤ 1 ∧
      -1 ≤ (update_eye_positions ls s t now rx ry).saccade_target_y ∧
      (update_eye_positions ls s t now rx ry).saccade_target_y ≤ 1) := by
  have hrxq : -1 ≤ mkRat rx 100 ∧ mkRat rx 100 ≤ 1 := by
    rw [Rat.mkRat_eq_div]
    have h1 : ((-100 : Int) : ℚ) ≤ (rx : ℚ) := by exact_mod_cast hrx.1
    have h2 : (rx : ℚ) ≤ ((100 : Int) : ℚ) := by exact_mod_cast hrx.2
    constructor
    · rw [le_div_iff₀ (by norm_num : (0 : ℚ) < ((100 : ℕ) : ℚ))]
      push_cast at h1 ⊢
      linarith
    · rw [div_le_one (by norm_num : (0 : ℚ) < ((100 : ℕ) : ℚ))]
      push_cast at h2 ⊢
      linarith
  have hryq : -1 ≤ mkRat ry 100 ∧ mkRat ry 100 ≤ 1 := by
    rw [Rat.mkRat_eq_div]
    have h1 : ((-100 : Int) : ℚ) ≤ (ry : ℚ) := by exact_mod_cast hry.1
    have h2 : (ry : ℚ) ≤ ((100 : Int) : ℚ) := by exact_mod_cast hry.2
    constructor
    · rw [le_div_iff₀ (by norm_num : (0 : ℚ) < ((100 : ℕ) : ℚ))]
      push_cast at h1 ⊢
      linarith
    · rw [div_le_one (by norm_num : (0 : ℚ) < ((100 : ℕ) : ℚ))]
      push_cast at h2 ⊢
      linarith
  unfold update_eye_positions
  by_cases hv : t.is_valid
  · rw [if_pos hv]
    obtain ⟨htx1, htx2, hty1, hty2⟩ := ht hv
    refine ⟨?_, hsac⟩
    intro p hp
    simp only [List.mem_map] at hp
    obtain ⟨q, hq, rfl⟩ := hp
    obtain ⟨hq1, hq2, hq3, hq4⟩ := heyes q hq
    obtain ⟨ha, hb⟩ := lerp_step_bounds q.1 t.x ls hq1 hq2 htx1 htx2 hls hle
    obtain ⟨hc, hd⟩ := lerp_step_bounds q.2 t.y ls hq3 hq4 hty1 hty2 hls hle
    exact ⟨ha, hb, hc, hd⟩
  · rw [if_neg hv]
    by_cases hga : SACCADE_DELAY_AFTER_TRACK_MS < u32sub now s.last_track_time
    · by_cases hgb : SACCADE_INTERVAL_MS < u32sub now s.last_saccade_time
      · rw [if_pos hga, if_pos hgb]
        refine ⟨?_, hrxq.1, hrxq.2, hryq.1, hryq.2⟩
        intro p hp
        simp only [List.mem_map] at hp
        obtain ⟨q, hq, rfl⟩ := hp
        obtain ⟨hq1, hq2, hq3, hq4⟩ := heyes q hq
        obtain ⟨ha, hb⟩ := lerp_step_bounds q.1 _ ls hq1 hq2 hrxq.1 hrxq.2 hls hle
        obtain ⟨hc, hd⟩ := lerp_step_bounds q.2 _ ls hq3 hq4 hryq.1 hryq.2 hls hle
        exact ⟨ha, hb, hc, hd⟩
      · rw [if_pos hga, if_neg hgb]
        refine ⟨?_, hsac⟩
        intro p hp
        simp only [List.mem_map] at hp
        obtain ⟨q, hq, rfl⟩ := hp
        obtain ⟨hq1, hq2, hq3, hq4⟩ := heyes q hq
        obtain ⟨ha, hb⟩ := lerp_step_bounds q.1 _ ls hq1 hq2 hsac.1 hsac.2.1 hls hle
        obtain ⟨hc, hd⟩ := lerp_step_bounds q.2 _ ls hq3 hq4 hsac.2.2.1 hsac.2.2.2 hls hle
        exact ⟨ha, hb, hc, hd⟩
    · rw [if_neg hga]
      refine ⟨?_, hsac⟩
      intro p hp
      simp only [List.mem_map] at hp
      obtain ⟨q, hq, rfl⟩ := hp
      obtain ⟨hq1, hq2, hq3, hq4⟩ := heyes q hq
      obtain ⟨ha, hb⟩ := lerp_step_bounds q.1 _ ls hq1 hq2 hsac.1 hsac.2.1 hls hle
      obtain ⟨hc, hd⟩ := lerp_step_bounds q.2 _ ls hq3 hq4 hsac.2.2.1 hsac.2.2.2 hls hle
      exact ⟨ha, hb, hc, hd⟩

/-- C10: the smoothed gaze position stays in `[-1, 1]` per axis as an
invariant of the update step: every goal the controller can select lies in
`[-1, 1]` per axis — detected targets carry normalized coordinates
`(index - 3.5) / 3.5` with index 0..7, and idle saccade goals are
`random(-100, 101) / 100` — and the tick update maps in-range positions and
goals to in-range positions (the clamp the source omits is never needed). -/
theorem gaze_position_invariant :
    (∀ (data : VL53L5CXResults) (prev : TofTarget),
      (process_measurement_data data prev).is_valid = true →
      (-1 ≤ (process_measurement_data data prev).x ∧
        (process_measurement_data data prev).x ≤ 1 ∧
        -1 ≤ (process_measurement_data data prev).y ∧
        (process_measurement_data data prev).y ≤ 1)) ∧
    (∀ (rx : Int), -100 ≤ rx → rx ≤ 100 →
      -1 ≤ mkRat rx 100 ∧ mkRat rx 100 ≤ 1) ∧
    (∀ (p g ls : ℚ), -1 ≤ p → p ≤ 1 → -1 ≤ g → g ≤ 1 → 0 < ls → ls ≤ 1 →
      -1 ≤ lerp_step p g ls ∧ lerp_step p g ls ≤ 1) ∧
    (∀ (ls : ℚ) (s : EyeLogicState) (t : TofTarget) (now : Nat) (rx ry : Int),
      0 < ls → ls ≤ 1 →
      (∀ p ∈ s.eye_positions, -1 ≤ p.1 ∧ p.1 ≤ 1 ∧ -1 ≤ p.2 ∧ p.2 ≤ 1) →
      (-1 ≤ s.saccade_target_x ∧ s.saccade_target_x ≤ 1 ∧
        -1 ≤ s.saccade_target_y ∧ s.saccade_target_y ≤ 1) →
      (t.is_valid = true → -1 ≤ t.x ∧ t.x ≤ 1 ∧ -1 ≤ t.y ∧ t.y ≤ 1) →
      (-100 ≤ rx ∧ rx ≤ 100) → (-100 ≤ ry ∧ ry ≤ 100) →
      (∀ p ∈ (update_eye_positions ls s t now rx ry).eye_positions,
        -1 ≤ p.1 ∧ p.1 ≤ 1 ∧ -1 ≤ p.2 ∧ p.2 ≤ 1) ∧
      (-1 ≤ (update_eye_positions ls s t now rx ry).saccade_target_x ∧
        (update_eye_positions ls s t now rx ry).saccade_target_x ≤ 1 ∧
        -1 ≤ (update_eye_positions ls s t now rx ry).saccade_target_y ∧
        (update_eye_positions ls s t now rx ry).saccade_target_y ≤ 1)) := by
  refine ⟨detected_target_in_range, ?_, ?_, ?_⟩
  · intro rx h1 h2
    rw [Rat.mkRat_eq_div]
    have hc1 : ((-100 : Int) : ℚ) ≤ (rx : ℚ) := by exact_mod_cast h1
    have hc2 : (rx : ℚ) ≤ ((100 : Int) : ℚ) := by exact_mod_cast h2
    constructor
    · rw [le_div_iff₀ (by norm_num : (0 : ℚ) < ((100 : ℕ) : ℚ))]
      push_cast at hc1 ⊢
      linarith
    · rw [div_le_one (by norm_num : (0 : ℚ) < ((100 : ℕ) : ℚ))]
      push_cast at hc2 ⊢
      linarith
  · intro p g ls hp1 hp2 hg1 hg2 hls hle
    exact lerp_step_bounds p g ls hp1 hp2 hg1 hg2 hls hle
  · intro ls s t now rx ry hls hle heyes hsac ht hrx hry
    exact update_preserves_range ls s t now rx ry hls hle heyes hsac ht hrx hry

/-- Witness for C10: the invariant at the scenario frame's target, the
random draw 50, a concrete smoothing step, and a concrete tick on `sC6`. -/
theorem gaze_position_invariant_witness :
    ((-1 ≤ (process_measurement_data frameC2 initTofTarget).x ∧
      (process_measurement_data frameC2 initTofTarget).x ≤ 1 ∧
      -1 ≤ (process_measurement_data frameC2 initTofTarget).y ∧
      (process_measurement_data frameC2 initTofTarget).y ≤ 1)) ∧
    (-1 ≤ mkRat 50 100 ∧ mkRat 50 100 ≤ 1) ∧
    (-1 ≤ lerp_step 0 1 (mkRat 1 5) ∧ lerp_step 0 1 (mkRat 1 5) ≤ 1) ∧
    ((∀ p ∈ (update_eye_positions (mkRat 1 5) sC6 tofValidSample 1600 0 0).eye_positions,
        -1 ≤ p.1 ∧ p.1 ≤ 1 ∧ -1 ≤ p.2 ∧ p.2 ≤ 1) ∧
      (-1 ≤ (update_eye_positions (mkRat 1 5) sC6 tofValidSample 1600 0 0).saccade_target_x ∧
        (update_eye_positions (mkRat 1 5) sC6 tofValidSample 1600 0 0).saccade_target_x ≤ 1 ∧
        -1 ≤ (update_eye_positions (mkRat 1 5) sC6 tofValidSample 1600 0 0).saccade_target_y ∧
        (update_eye_positions (mkRat 1 5) sC6 tofValidSample 1600 0 0).saccade_target_y ≤ 1)) :=
  ⟨gaze_position_invariant.1 frameC2 initTofTarget (by decide),
    gaze_position_invariant.2.1 50 (by decide) (by decide),
    gaze_position_invariant.2.2.1 0 1 (mkRat 1 5) (by norm_num) (by norm_num)
      (by norm_num) (by norm_num) (by decide) (by decide),
    gaze_position_invariant.2.2.2 (mkRat 1 5) sC6 tofValidSample 1600 0 0
      (by decide) (by decide)
      (by decide)
      (by decide)
      (fun _ => by decide)
      (by decide) (by decide)⟩

/-! ### Theorems: compositor -/

/-- `wrap16` always lands in the `int16_t` range. -/
theorem wrap16_bounds (v : Int) : -32768 ≤ wrap16 v ∧ wrap16 v < 32768 := by
  unfold wrap16
  omega

/-- The scanline extent is at most 120, so every drawable row's range lies
inside the 240-pixel-wide display. -/
theorem circular_scanlines_bounds : ∀ dy, dy < 240 →
    (circular_scanlines dy).1 = -1 ∨
    (0 ≤ (circular_scanlines dy).1 ∧ (circular_scanlines dy).2 ≤ 240) := by
  decide

/-- C3: for every texture position offset, every eyelid level and every
texture, every pixel event of `draw_eye_image` has its destination inside
the framebuffer (`0 ≤ row < SCR_HT`, `0 ≤ col < SCR_WD`) and its texture
read inside the texture extent (`0 ≤ srcY < EYE_IMAGE_HEIGHT`,
`0 ≤ srcX < EYE_IMAGE_WIDTH`). -/
theorem draw_eye_image_stays_in_bounds
    (tex : Int → Nat) (x_pos y_pos : Int) (eyelid_level : Nat) (e : PixelEv)
    (he : e ∈ pixelEvents tex x_pos y_pos eyelid_level) :
    0 ≤ e.row ∧ e.row < (SCR_HT : Int) ∧ 0 ≤ e.col ∧ e.col < (SCR_WD : Int) ∧
    0 ≤ e.srcY ∧ e.srcY < (EYE_IMAGE_HEIGHT : Int) ∧
    0 ≤ e.srcX ∧ e.srcX < (EYE_IMAGE_WIDTH : Int) := by
  rw [pixelEvents, List.mem_flatMap] at he
  obtain ⟨y, hy, he⟩ := he
  rw [List.mem_range] at hy
  rw [drawRowEvents] at he
  dsimp only at he
  split at he
  · exact absurd he (List.not_mem_nil e)
  rename_i hguard
  split at he
  · exact absurd he (List.not_mem_nil e)
  rename_i hsl
  rw [List.mem_map] at he
  obtain ⟨i, hi, rfl⟩ := he
  rw [List.mem_range] at hi
  push_neg at hguard
  obtain ⟨hg1, hg2, hg3, hg4⟩ := hguard
  have hrow := circular_scanlines_bounds (wrap16 (wrap16 y_pos + (y : Int))).toNat
    (by simp only [SCR_HT] at hg2; omega)
  rcases hrow with hrow | ⟨hr1, hr2⟩
  · exact absurd hrow hsl
  have hxp := wrap16_bounds x_pos
  have hyp := wrap16_bounds y_pos
  dsimp only
  simp only [SCR_HT, SCR_WD, EYE_IMAGE_HEIGHT, EYE_IMAGE_WIDTH, wrap16] at *
  omega

/-- Witness for C3: a concrete pixel event of a concrete call (texture
constantly 7, position (133, -172), eyelid level 127) is in bounds. -/
theorem draw_eye_image_stays_in_bounds_witness :
    ((⟨1, 133, 173, 0, 7⟩ : PixelEv) ∈ pixelEvents (fun _ => 7) 133 (-172) 127) ∧
    (0 ≤ (⟨1, 133, 173, 0, 7⟩ : PixelEv).row ∧
      (⟨1, 133, 173, 0, 7⟩ : PixelEv).row < (SCR_HT : Int) ∧
      0 ≤ (⟨1, 133, 173, 0, 7⟩ : PixelEv).col ∧
      (⟨1, 133, 173, 0, 7⟩ : PixelEv).col < (SCR_WD : Int) ∧
      0 ≤ (⟨1, 133, 173, 0, 7⟩ : PixelEv).srcY ∧
      (⟨1, 133, 173, 0, 7⟩ : PixelEv).srcY < (EYE_IMAGE_HEIGHT : Int) ∧
      0 ≤ (⟨1, 133, 173, 0, 7⟩ : PixelEv).srcX ∧
      (⟨1, 133, 173, 0, 7⟩ : PixelEv).srcX < (EYE_IMAGE_WIDTH : Int)) :=
  ⟨by decide,
    draw_eye_image_stays_in_bounds (fun _ => 7) 133 (-172) 127 ⟨1, 133, 173, 0, 7⟩
      (by decide)⟩

/-- Every event of a row iteration carries that row's destination row. -/
theorem drawRowEvents_row_eq (tex : Int → Nat) (xp yp : Int) (cutoff y : Nat)
    (e : PixelEv) (he : e ∈ drawRowEvents tex xp yp cutoff y) :
    e.row = wrap16 (yp + (y : Int)) := by
  rw [drawRowEvents] at he
  dsimp only at he
  split at he
  · exact absurd he (List.not_mem_nil e)
  split at he
  · exact absurd he (List.not_mem_nil e)
  rw [List.mem_map] at he
  obtain ⟨i, -, rfl⟩ := he
  rfl

/-- Within one row iteration, distinct events target distinct columns. -/
theorem drawRowEvents_pairwise (tex : Int → Nat) (xp yp : Int) (cutoff y : Nat) :
    (drawRowEvents tex xp yp cutoff y).Pairwise (fun a b => a.col ≠ b.col) := by
  rw [drawRowEvents]
  dsimp only
  split
  · exact List.Pairwise.nil
  split
  · exact List.Pairwise.nil
  rw [List.pairwise_map]
  exact (List.pairwise_lt_range _).imp (fun hij => by dsimp only; omega)

/-- All pixel events of one draw call target pairwise distinct destination
pixels. -/
theorem pixelEvents_pairwise (tex : Int → Nat) (x_pos y_pos : Int)
    (eyelid_level : Nat) :
    (pixelEvents tex x_pos y_pos eyelid_level).Pairwise
      (fun a b => a.row ≠ b.row ∨ a.col ≠ b.col) := by
  rw [pixelEvents, List.pairwise_flatMap]
  constructor
  · intro y hy
    exact (drawRowEvents_pairwise _ _ _ _ y).imp (fun h => Or.inr h)
  · have hpw : List.Pairwise (· < ·) (List.range EYE_IMAGE_HEIGHT) :=
      List.pairwise_lt_range _
    refine hpw.imp_of_mem ?_
    intro a b ha hb hab ea hea eb heb
    left
    rw [drawRowEvents_row_eq _ _ _ _ _ ea hea,
      drawRowEvents_row_eq _ _ _ _ _ eb heb]
    rw [List.mem_range] at ha hb
    simp only [wrap16, EYE_IMAGE_HEIGHT] at *
    omega

/-- Folding `applyEv` over events that never target `(r, c)` leaves the
framebuffer value at `(r, c)` unchanged. -/
theorem foldl_applyEv_untouched (l : List PixelEv) (fb : Int → Int → Nat)
    (r c : Int) (h : ∀ e ∈ l, e.row ≠ r ∨ e.col ≠ c) :
    (l.foldl applyEv fb) r c = fb r c := by
  induction l generalizing fb with
  | nil => rfl
  | cons e rest ih =>
    rw [List.foldl_cons, ih _ (fun e' he' => h e' (List.mem_cons_of_mem _ he'))]
    unfold applyEv
    split
    · rfl
    · dsimp only
      rw [if_neg]
      rintro ⟨h1, h2⟩
      rcases h e (List.mem_cons_self _ _) with h3 | h3
      · exact h3 h1.symm
      · exact h3 h2.symm

/-- C4: for every drawn destination pixel of `draw_eye_image`: if the
source texture pixel read for it equals the transparent color key, the
destination keeps its pre-render value; otherwise the destination ends up
holding the byte-swapped source pixel value. -/
theorem draw_eye_image_transparency
    (tex : Int → Nat) (fb : Int → Int → Nat) (x_pos y_pos : Int)
    (eyelid_level : Nat) (e : PixelEv)
    (he : e ∈ pixelEvents tex x_pos y_pos eyelid_level) :
    (e.color = TRANSPARENT_COLOR_KEY →
      draw_eye_image tex fb x_pos y_pos eyelid_level e.row e.col = fb e.row e.col) ∧
    (e.color ≠ TRANSPARENT_COLOR_KEY →
      draw_eye_image tex fb x_pos y_pos eyelid_level e.row e.col =
        swap_color_bytes e.color) := by
  obtain ⟨s, t, hst⟩ := List.append_of_mem he
  have hpw := pixelEvents_pairwise tex x_pos y_pos eyelid_level
  rw [hst, List.pairwise_append] at hpw
  obtain ⟨hps, hpet, hcross⟩ := hpw
  have het : ∀ b ∈ t, b.row ≠ e.row ∨ b.col ≠ e.col := by
    intro b hb
    rcases (List.pairwise_cons.mp hpet).1 b hb with h | h
    · exact Or.inl (Ne.symm h)
    · exact Or.inr (Ne.symm h)
  have hse : ∀ a ∈ s, a.row ≠ e.row ∨ a.col ≠ e.col := fun a haa =>
    hcross a haa e (List.mem_cons_self _ _)
  unfold draw_eye_image
  rw [hst, List.foldl_append, List.foldl_cons]
  rw [foldl_applyEv_untouched t _ e.row e.col het]
  constructor
  · intro hc
    unfold applyEv
    rw [if_pos hc]
    exact foldl_applyEv_untouched s fb e.row e.col hse
  · intro hc
    unfold applyEv
    rw [if_neg hc]
    rw [if_pos ⟨rfl, rfl⟩]

/-- Witness for C4: in a concrete call with texture `texC4`, the pixel
event reading the transparent key leaves the destination at its pre-render
value 3, and the event reading color 7 writes the byte-swapped 7. -/
theorem draw_eye_image_transparency_witness :
    (((⟨1, 133, 173, 0, 0⟩ : PixelEv).color = TRANSPARENT_COLOR_KEY →
      draw_eye_image texC4 (fun _ _ => 3) 133 (-172) 127
          (⟨1, 133, 173, 0, 0⟩ : PixelEv).row (⟨1, 133, 173, 0, 0⟩ : PixelEv).col =
        (fun _ _ => 3 : Int → Int → Nat)
          (⟨1, 133, 173, 0, 0⟩ : PixelEv).row (⟨1, 133, 173, 0, 0⟩ : PixelEv).col) ∧
    ((⟨1, 133, 173, 0, 0⟩ : PixelEv).color ≠ TRANSPARENT_COLOR_KEY →
      draw_eye_image texC4 (fun _ _ => 3) 133 (-172) 127
          (⟨1, 133, 173, 0, 0⟩ : PixelEv).row (⟨1, 133, 173, 0, 0⟩ : PixelEv).col =
        swap_color_bytes (⟨1, 133, 173, 0, 0⟩ : PixelEv).color)) :=
  draw_eye_image_transparency texC4 (fun _ _ => 3) 133 (-172) 127
    ⟨1, 133, 173, 0, 0⟩ (by decide)

/-- C9: with `eyelid_level = 128` (fully closed) the eyelid band covers the
whole texture height, so a draw call performs no pixel event at all and
leaves the framebuffer untouched, for every texture and position. -/
theorem fully_closed_eyelid_draws_nothing (tex : Int → Nat)
    (fb : Int → Int → Nat) (x_pos y_pos : Int) :
    pixelEvents tex x_pos y_pos 128 = [] ∧
    draw_eye_image tex fb x_pos y_pos 128 = fb := by
  have h : pixelEvents tex x_pos y_pos 128 = [] := by
    rw [pixelEvents, List.flatMap_eq_nil_iff]
    intro y hy
    rw [List.mem_range] at hy
    rw [drawRowEvents]
    dsimp only
    rw [if_pos]
    simp only [eyelid_cutoff, EYE_IMAGE_HEIGHT, SCR_HT]
    omega
  refine ⟨h, ?_⟩
  unfold draw_eye_image
  rw [h]
  rfl
